import Mathlib

/-!
Verification development for the `rng_go_cli` repository: a shallow embedding
of the random-source implementations (`pseudorng`, `truerng`, `bbusb`) and the
interval-collection loops, together with theorems settling the specified
properties.  Bytes are modelled as `Nat` values below 256; Go machine-integer
casts appear as explicit `% 256`, `% 2^16`, `% 2^64` reductions.  Fallible Go
calls are driven by explicit oracles (lists of outcomes consumed in order), so
every definition is executable.
-/

namespace RngCli

/-- I/O effects performed by a `ReadBits`-style operation, used to state the
"performs no I/O before failing" properties. -/
inductive IOEvent
  | crandRead (n : Nat)     -- pseudorng: crypto/rand.Read of n bytes
  | enumeratePorts          -- truerng: serial-port enumeration (FindPort)
  | openPort                -- truerng: serial.Open
  | serialRead (n : Nat)    -- truerng: the port-read loop for n bytes
  | usbOpen                 -- bbusb: OpenBitBabbler (device open + MPSSE init)
  | usbTransfer             -- bbusb: the ReadRandom bulk exchange
deriving DecidableEq

/-- Apply `f` to the last element of a list (`buf[len(buf)-1] = f(buf[len(buf)-1])`).
On `[]` no element exists; the Go sites guard for non-emptiness. -/
def applyLast (f : Nat → Nat) : List Nat → List Nat
  | [] => []
  | [b] => [f b]
  | b :: rest => b :: applyLast f rest

/-- Shared bit-trim of `pseudorng.ReadBits` and `truerng.ReadBits`:
`extraBits := (8 - bitCount%8) % 8; if extraBits != 0 { buf[last] &= byte(0xFF << extraBits) }`.
The Go `byte(...)` cast is the `% 256`. -/
def zeroLowBits (bitCount : Nat) (buf : List Nat) : List Nat :=
  let extraBits := (8 - bitCount % 8) % 8
  if extraBits = 0 then buf
  else applyLast (fun b => b &&& ((0xFF <<< extraBits) % 256)) buf

namespace Pseudorng

/-- `pseudorng.ReadBits` (src/pseudorng/pseudorng.go lines 17-34). The
`entropy` oracle stands for the bytes `crypto/rand.Read` would deliver; a
shortfall models a `crand.Read` error. -/
def ReadBits (bitCount : Int) (entropy : List Nat) :
    Except String (List Nat) × List IOEvent :=
  if bitCount ≤ 0 then (.error "bitCount must be positive", [])
  else
    let byteCount := (bitCount.toNat + 7) / 8
    if entropy.length < byteCount then
      (.error "entropy read failed", [.crandRead byteCount])
    else (.ok (zeroLowBits bitCount.toNat (entropy.take byteCount)), [.crandRead byteCount])

end Pseudorng

namespace TrueRng

/-- `truerng.ReadBytes` (src/unnamed/part_001 lines 59-104). Oracles:
`port` is the result of `FindPort` (`none` = no TrueRNG device found),
`openOk` the outcome of `serial.Open`, and `stream` the bytes the serial port
delivers before the 10-second deadline; a shortfall models the timeout. -/
def ReadBytes (blockSize : Int) (port : Option String) (openOk : Bool)
    (stream : List Nat) : Except String (List Nat) × List IOEvent :=
  if blockSize ≤ 0 then (.error "blockSize must be positive", [])
  else
    match port with
    | none => (.error "TrueRNG device not found", [.enumeratePorts])
    | some _ =>
      if openOk = false then (.error "open failed", [.enumeratePorts, .openPort])
      else if stream.length < blockSize.toNat then
        (.error "read timeout", [.enumeratePorts, .openPort, .serialRead blockSize.toNat])
      else
        (.ok (stream.take blockSize.toNat),
         [.enumeratePorts, .openPort, .serialRead blockSize.toNat])

/-- `truerng.ReadBits` (src/unnamed/part_001 lines 108-124). -/
def ReadBits (bitCount : Int) (port : Option String) (openOk : Bool)
    (stream : List Nat) : Except String (List Nat) × List IOEvent :=
  if bitCount ≤ 0 then (.error "bitCount must be positive", [])
  else
    let byteCount : Int := ((bitCount.toNat + 7) / 8 : Nat)
    match ReadBytes byteCount port openOk stream with
    | (.error e, evs) => (.error e, evs)
    | (.ok data, evs) => (.ok (zeroLowBits bitCount.toNat data), evs)

end TrueRng

namespace Bbusb

/-- MPSSE opcode constants (src/bbusb/detect_windows.go lines 364-376). -/
def mpsseSendImmediate : Nat := 0x87

/-- read bytes in, MSB first, sample on +ve edge. -/
def mpsseDataByteInPosMSB : Nat := 0x20

/-- The MPSSE read command `ReadRandom` writes for an `n`-byte request:
`{0x20, byte((n-1)&0xFF), byte((n-1)>>8), 0x87}` (lines 601-606). -/
def mpsseReadCmd (n : Nat) : List Nat :=
  [mpsseDataByteInPosMSB, (n - 1) &&& 0xFF, ((n - 1) >>> 8) &&& 0xFF, mpsseSendImmediate]

/-- The per-chunk stride walk of `ReadRandom` (lines 623-644), *without* the
`want - got` budget clamp: walk the received chunk in `maxPacket`-size strides
(`take := min remain maxPacket`), strip the 2-byte status header of each
stride, stop when the remainder is ≤ 2 bytes.  `fuel` bounds the recursion
exactly as `offset < m` bounds the Go loop: the offset advances by
`take ≥ 1` per iteration whenever `maxPacket ≥ 1`, so `fuel = chunk.length`
always suffices (for `maxPacket = 0` the Go loop would never advance and the
fuel guard makes the model total). -/
def stripPacketWalk (maxPacket : Nat) : Nat → List Nat → List Nat
  | 0, _ => []
  | fuel + 1, chunk =>
    if chunk.length ≤ 2 then []
    else
      let t := min chunk.length maxPacket
      (chunk.drop 2).take (t - 2) ++ stripPacketWalk maxPacket fuel (chunk.drop t)

/-- All payload (non-header) bytes of one received chunk. -/
def stripPacket (maxPacket : Nat) (chunk : List Nat) : List Nat :=
  stripPacketWalk maxPacket chunk.length chunk

/-- The stride walk exactly as `ReadRandom` performs it, with the
`usable > want-got` clamp (`usable := min (take-2) budget`) and the
`if got == want break` exit (`budget - usable = 0`). -/
def stripWalkTo (maxPacket : Nat) : Nat → Nat → List Nat → List Nat
  | 0, _, _ => []
  | fuel + 1, budget, chunk =>
    if chunk.length ≤ 2 then []
    else
      let t := min chunk.length maxPacket
      let usable := min (t - 2) budget
      (chunk.drop 2).take usable ++
        (if budget - usable = 0 then []
         else stripWalkTo maxPacket fuel (budget - usable) (chunk.drop t))

/-- Payload extracted from one chunk when at most `budget` more bytes are
wanted (the Go inner loop body for one `inEp.Read` result). -/
def stripChunkGo (maxPacket budget : Nat) (chunk : List Nat) : List Nat :=
  stripWalkTo maxPacket chunk.length budget chunk

/-- Outcome of the `ReadRandom` read loop.  `ok` carries the payload placed in
`buf` (the loop only exits normally once `got = want`); `transferErr` carries
the partial payload present when `inEp.Read` failed (`return got, err`);
`starved` is a model artifact for a transport oracle that runs out of chunks
while `got < want` — in Go the read would block instead. -/
inductive RRResult
  | ok (payload : List Nat)
  | transferErr (payload : List Nat)
  | starved (payload : List Nat)
deriving DecidableEq

/-- The `for got < want` read loop of `ReadRandom` (lines 612-645).  Each
oracle entry is one `inEp.Read` result: `none` is a read error, `some chunk`
a successful read of those bytes.  A chunk of length ≤ 2 contributes no
payload (`if m <= 2 continue` — `stripChunkGo` returns `[]` for it).  The
second component counts bulk-IN reads issued. -/
def ReadRandomLoop (maxPacket want : Nat) :
    List (Option (List Nat)) → List Nat → RRResult × Nat
  | [], acc => (if want ≤ acc.length then .ok acc else .starved acc, 0)
  | r :: rest, acc =>
    if want ≤ acc.length then (.ok acc, 0)
    else
      match r with
      | none => (.transferErr acc, 1)
      | some chunk =>
        let p :=
          ReadRandomLoop maxPacket want rest
            (acc ++ stripChunkGo maxPacket (want - acc.length) chunk)
        (p.1, p.2 + 1)

/-- Full result of a `ReadRandom` call: the loop outcome, the MPSSE command
writes issued on the bulk-OUT endpoint, and the number of bulk-IN reads. -/
structure RROut where
  result : RRResult
  cmdWrites : List (List Nat)
  bulkReads : Nat
deriving DecidableEq

/-- `DeviceSession.ReadRandom` (lines 595-647).  `cmdWriteOk` is the outcome
of the single `outEp.Write` of the MPSSE read command (failure: `return 0, err`).
An empty buffer returns `(0, nil)` before any I/O.  The session itself is
never mutated by the Go code, so the model needs no session state. -/
def ReadRandom (maxPacket : Nat) (cmdWriteOk : Bool)
    (reads : List (Option (List Nat))) (bufLen : Nat) : RROut :=
  if bufLen = 0 then ⟨.ok [], [], 0⟩
  else if cmdWriteOk = false then ⟨.transferErr [], [mpsseReadCmd bufLen], 0⟩
  else
    let p := ReadRandomLoop maxPacket bufLen reads []
    ⟨p.1, [mpsseReadCmd bufLen], p.2⟩

/-- The final-byte mask of `bbusb.ReadBitsOnce` / `StartBitCollector`
(src/unnamed/part_002 lines 42-45 and 106-109):
`if bits%8 != 0 && len(buf) > 0 { buf[last] &= 0xFF >> (8 - bits%8) }`. -/
def maskExcess (bits : Nat) (buf : List Nat) : List Nat :=
  if bits % 8 ≠ 0 ∧ buf ≠ [] then
    applyLast (fun b => b &&& (0xFF >>> (8 - bits % 8))) buf
  else buf

/-- Transport oracle state for `OpenBitBabbler`: the outcomes the USB stack
will deliver, consumed in order — `controls` for vendor control transfers,
`reads` for bulk-IN reads (the bytes returned), `writes` for bulk-OUT writes.
An exhausted oracle yields a failed control/write and an empty read. -/
structure St where
  controls : List Bool
  reads : List (List Nat)
  writes : List Bool
  sent : List (List Nat) := []   -- log of bulk-OUT buffers handed to the chip
deriving DecidableEq

def takeControl (st : St) : Bool × St :=
  match st.controls with
  | [] => (false, st)
  | c :: rest => (c, { st with controls := rest })

def takeRead (st : St) : List Nat × St :=
  match st.reads with
  | [] => ([], st)
  | c :: rest => (c, { st with reads := rest })

def takeWrite (data : List Nat) (st : St) : Bool × St :=
  match st.writes with
  | [] => (false, st)
  | w :: rest => (w, { st with writes := rest, sent := st.sent ++ [data] })

/-- `ftdiReset` (line 661): one vendor control transfer. -/
def ftdiReset : St → Bool × St := takeControl

/-- `ftdiSetSpecialChars` (lines 673-686): two control transfers (event char
then error char); the second is only issued if the first succeeds. -/
def ftdiSetSpecialChars (st : St) : Bool × St :=
  let a := takeControl st
  if a.1 = false then (false, a.2) else takeControl a.2

/-- `ftdiSetLatencyTimer` (line 667): one control transfer carrying the
latency value (the outcome is the oracle's; the value does not affect it). -/
def ftdiSetLatencyTimer (_ms : Nat) : St → Bool × St := takeControl

/-- `ftdiSetFlowControl` (line 670): one control transfer. -/
def ftdiSetFlowControl : St → Bool × St := takeControl

/-- `ftdiSetBitmode` (line 664): one control transfer (for either mode). -/
def ftdiSetBitmode : St → Bool × St := takeControl

/-- The bounded drain loop of `purgeRead` (lines 688-697): up to 10 bulk-IN
reads, stopping at the first result of ≤ 2 bytes.  Read errors are ignored
(`n, _ := s.inEp.Read(buf)`); an exhausted oracle reads as 0 bytes, which in
Go corresponds to a short read.  `purgeRead` always returns nil. -/
def purgeLoop : Nat → St → St
  | 0, st => st
  | i + 1, st =>
    let r := takeRead st
    if r.1.length ≤ 2 then r.2 else purgeLoop i r.2

/-- `purgeRead` as an init step: never fails. -/
def purgeStep (st : St) : Bool × St := (true, purgeLoop 10 st)

/-- The reply test inside `checkSync` (line 707):
`n == 4 && buf[2] == 0xFA && buf[3] == cmd`. -/
def syncReplyMatches (cmd : Nat) (chunk : List Nat) : Prop :=
  chunk.length = 4 ∧ chunk.getD 2 0 = 0xFA ∧ chunk.getD 3 0 = cmd

instance (cmd : Nat) (chunk : List Nat) : Decidable (syncReplyMatches cmd chunk) := by
  unfold syncReplyMatches; infer_instance

/-- The bounded read loop of `checkSync` (lines 705-710): up to 10 bulk-IN
reads looking for the 4-byte echo reply. -/
def syncLoop (cmd : Nat) : Nat → St → Bool × St
  | 0, st => (false, st)
  | i + 1, st =>
    let r := takeRead st
    if syncReplyMatches cmd r.1 then (true, r.2) else syncLoop cmd i r.2

/-- `checkSync` (lines 699-712): write `{cmd, 0x87}`; on write failure return
false, else scan up to 10 reads for the echo reply. -/
def checkSync (cmd : Nat) (st : St) : Bool × St :=
  let w := takeWrite [cmd, mpsseSendImmediate] st
  if w.1 = false then (false, w.2) else syncLoop cmd 10 w.2

/-- One two-stage sync attempt: `s.checkSync(0xAA) && s.checkSync(0xAB)`
(short-circuit: 0xAB is not attempted if 0xAA fails). -/
def checkSyncPair (st : St) : Bool × St :=
  let a := checkSync 0xAA st
  if a.1 = false then (false, a.2) else checkSync 0xAB a.2

/-- The sync block of `OpenBitBabbler` (lines 536-540): run the two-stage
check; if it fails, run the whole two-stage check exactly once more. -/
def syncStep (st : St) : Bool × St :=
  let a := checkSyncPair st
  if a.1 then a else checkSyncPair a.2

/-- The clock divisor as `OpenBitBabbler` computes it (line 547):
`uint16(30000000/bitrate - 1)` — Go unsigned integer (truncating) division,
with the `uint` subtraction wrapping modulo `2^64` and the `uint16`
conversion reducing modulo `2^16`. -/
def clkDiv (bitrate : Nat) : Nat :=
  ((30000000 / bitrate + (2 ^ 64 - 1)) % 2 ^ 64) % 2 ^ 16

/-- The combined MPSSE parameter command buffer (lines 548-562): no clk/5, no
adaptive clock, no 3-phase clock, low GPIO bank level/direction, high GPIO
bank, clock divisor low/high bytes, no loopback. -/
def initCmd (bitrate : Nat) : List Nat :=
  [0x8A, 0x97, 0x8D,
   0x80, 0x00, 0x0B,
   0x82, 0x00, 0x00,
   0x86, clkDiv bitrate &&& 0xFF, clkDiv bitrate >>> 8,
   0x85]

/-- The parameter-programming step (lines 563-569): one bulk write of
`initCmd`; on success a 30 ms settle then a purge whose result is ignored. -/
def programStep (bitrate : Nat) (st : St) : Bool × St :=
  let w := takeWrite (initCmd bitrate) st
  if w.1 = false then (false, w.2) else (true, purgeLoop 10 w.2)

/-- Run init steps in order, stopping at the first failure.  Returns the
number of steps attempted, the final oracle state, and overall success. -/
def runSteps : List (St → Bool × St) → St → Nat × St × Bool
  | [], st => (0, st, true)
  | f :: fs, st =>
    let a := f st
    if a.1 then
      let r := runSteps fs a.2
      (r.1 + 1, r.2.1, r.2.2)
    else (1, a.2, false)

/-- The default bitrate substitution at the top of `OpenBitBabbler`
(lines 433-435): `if bitrate == 0 { bitrate = 2_500_000 }`. -/
def effBitrate (bitrate : Nat) : Nat := if bitrate = 0 then 2500000 else bitrate

/-- The default latency substitution (lines 436-438):
`if latencyMs == 0 { latencyMs = 1 }`. -/
def effLatency (latencyMs : Nat) : Nat := if latencyMs = 0 then 1 else latencyMs

/-- The vendor InitMPSSE step sequence of `OpenBitBabbler` (lines 505-571),
in source order: reset, purge, special chars, latency timer, flow control,
bitmode reset, bitmode MPSSE, sync check (with its one retry), parameter
programming.  Each step's failure aborts the sequence. -/
def initSteps (bitrate latencyMs : Nat) : List (St → Bool × St) :=
  [ftdiReset, purgeStep, ftdiSetSpecialChars, ftdiSetLatencyTimer latencyMs,
   ftdiSetFlowControl, ftdiSetBitmode, ftdiSetBitmode, syncStep,
   programStep bitrate]

/-- Resource kinds a `DeviceSession` owns, in release order. -/
inductive Res | intf | cfg | dev | ctx
deriving DecidableEq

/-- A fully constructed `DeviceSession` (lines 419-427): the four resource
handles (modelled as presence flags — all true for a session built by
`OpenBitBabbler`) and the negotiated bulk-IN maximum packet size. -/
structure Session where
  maxPacket : Nat
  hasIntf : Bool
  hasCfg : Bool
  hasDev : Bool
  hasCtx : Bool
deriving DecidableEq

/-- Outcomes of the resource-acquisition phase of `OpenBitBabbler`
(lines 440-503): device open (covers both an open error and a nil device),
configuration claim, interface claim, and bulk endpoint resolution (covers
endpoint-open errors and a missing IN/OUT pair).  `maxPacket` is the bulk-IN
endpoint's maximum packet size. -/
structure Acq where
  deviceFound : Bool
  configOk : Bool
  interfaceOk : Bool
  endpointsOk : Bool
  maxPacket : Nat
deriving DecidableEq

/-- Result of `OpenBitBabbler`: the session (none on any failure), the
resource-release calls issued in order, and how many vendor init steps were
begun. -/
structure OpenResult where
  session : Option Session
  closes : List Res
  stepsAttempted : Nat
deriving DecidableEq

/-- `OpenBitBabbler` (lines 432-572).  Acquisition failures release exactly
the resources acquired so far, in reverse acquisition order; a vendor-step
failure calls `s.Close()`, releasing interface, configuration, device and
context.  Only a fully initialized session is ever returned. -/
def OpenBitBabbler (bitrate latencyMs : Nat) (acq : Acq) (st : St) : OpenResult :=
  let b := effBitrate bitrate
  let lat := effLatency latencyMs
  if acq.deviceFound = false then ⟨none, [.ctx], 0⟩
  else if acq.configOk = false then ⟨none, [.dev, .ctx], 0⟩
  else if acq.interfaceOk = false then ⟨none, [.cfg, .dev, .ctx], 0⟩
  else if acq.endpointsOk = false then ⟨none, [.intf, .cfg, .dev, .ctx], 0⟩
  else
    match runSteps (initSteps b lat) st with
    | (n, _, true) => ⟨some ⟨acq.maxPacket, true, true, true, true⟩, [], n⟩
    | (n, _, false) => ⟨none, [.intf, .cfg, .dev, .ctx], n⟩

/-- Whether the underlying USB resources are still open; the library `Close`
calls (gousb) mark their resource closed and are no-ops on an already closed
resource. -/
structure Resources where
  intfOpen : Bool
  cfgOpen : Bool
  devOpen : Bool
  ctxOpen : Bool
deriving DecidableEq

/-- `DeviceSession.Close` (lines 575-591): `if s == nil return`; then close
interface, configuration, device handle and USB context, in that order, each
guarded by a nil check on the field.  The method returns nothing and
discards the sub-close results, so no error is ever reported.  The returned
list records the close calls issued, in order. -/
def closeSession (s : Option Session) (r : Resources) : Resources × List Res :=
  match s with
  | none => (r, [])
  | some sess =>
    let (r1, e1) :=
      if sess.hasIntf then ({ r with intfOpen := false }, [Res.intf]) else (r, [])
    let (r2, e2) :=
      if sess.hasCfg then ({ r1 with cfgOpen := false }, [Res.cfg]) else (r1, [])
    let (r3, e3) :=
      if sess.hasDev then ({ r2 with devOpen := false }, [Res.dev]) else (r2, [])
    let (r4, e4) :=
      if sess.hasCtx then ({ r3 with ctxOpen := false }, [Res.ctx]) else (r3, [])
    (r4, e1 ++ e2 ++ e3 ++ e4)

/-- `bbusb.ReadBitsOnce` (src/unnamed/part_002 lines 22-47): validate `bits`,
open the device, read `ceil(bits/8)` bytes, mask the final byte.  The Go
`if got < numBytes { buf = buf[:got] }` is inert on the success path because
the `ReadRandom` loop only returns without error once `got = numBytes`
(see `readRandomLoop_ok_length`); the `starved` oracle artifact is mapped to
an error for totality (in Go the read would block). -/
def ReadBitsOnce (bits : Int) (bitrate latencyMs : Nat) (acq : Acq) (st : St)
    (cmdWriteOk : Bool) (rrReads : List (Option (List Nat))) :
    Except String (List Nat) × List IOEvent :=
  if bits ≤ 0 then (.error "bits must be > 0", [])
  else
    match (OpenBitBabbler bitrate latencyMs acq st).session with
    | none => (.error "open failed", [.usbOpen])
    | some sess =>
      let numBytes := (bits.toNat + 7) / 8
      match (ReadRandom sess.maxPacket cmdWriteOk rrReads numBytes).result with
      | .ok payload => (.ok (maskExcess bits.toNat payload), [.usbOpen, .usbTransfer])
      | .transferErr _ => (.error "read failed", [.usbOpen, .usbTransfer])
      | .starved _ => (.error "read blocked", [.usbOpen, .usbTransfer])

end Bbusb

/-- Resolution of a Go `select` between making progress (a ticker tick, or a
channel send going through) and `ctx.Done()`. -/
inductive Sel | proceed | cancelled
deriving DecidableEq

/-- Environment behavior for one iteration of the shared interval-collection
loop: the initial non-blocking `ctx.Done()` check, the `ReadBits` outcome,
and how the inter-tick `select` resolves. -/
structure LoopIter where
  cancelledAtTop : Bool
  readResult : Except String (List Nat)
  waitOutcome : Sel

/-- How a collection loop run ended.  `ranOut` is a model artifact for a
finite schedule that never cancels or errors (the Go loop runs on). -/
inductive CollectOutcome
  | cancelled
  | fatal (e : String)
  | ranOut
deriving DecidableEq

/-- Observable loop events: a `ReadBits` call, and a delivery to the sink. -/
inductive LoopEv
  | read
  | deliver (b : List Nat)
deriving DecidableEq

/-- The interval-collection loop body shared, line for line, by
`pseudorng.CollectBitsAtInterval` (src/pseudorng/pseudorng.go lines 52-71),
`(*pseudorng.Generator).CollectBitsAtInterval` (lines 132-151) and
`truerng.CollectBitsAtInterval` (src/unnamed/part_001 lines 144-162):
check cancellation (non-blocking); read; on error return it; deliver the
batch; block on ticker-or-cancellation. -/
def collectLoop : List LoopIter → CollectOutcome × List LoopEv
  | [] => (.ranOut, [])
  | it :: rest =>
    if it.cancelledAtTop then (.cancelled, [])
    else
      match it.readResult with
      | .error e => (.fatal e, [.read])
      | .ok b =>
        match it.waitOutcome with
        | .cancelled => (.cancelled, [.read, .deliver b])
        | .proceed =>
          let (o, evs) := collectLoop rest
          (o, .read :: .deliver b :: evs)

/-- `pseudorng.CollectBitsAtInterval` / `truerng.CollectBitsAtInterval`
including the argument validation ahead of the loop (`bitCount ≤ 0`,
`interval ≤ 0`, nil `onBatch`). -/
def CollectBitsAtInterval (bitCount interval : Int) (hasCallback : Bool)
    (sched : List LoopIter) : CollectOutcome × List LoopEv :=
  if bitCount ≤ 0 then (.fatal "bitCount must be positive", [])
  else if interval ≤ 0 then (.fatal "interval must be positive", [])
  else if hasCallback = false then (.fatal "onBatch callback must not be nil", [])
  else collectLoop sched

namespace Bbusb

/-- Outcome of one `sess.ReadRandom` call inside the collector goroutine.
`err` carries the buffer content at the moment of the error (Go sends the
unmodified `buf` along with the error). -/
inductive ReadOutcomeB
  | ok (payload : List Nat)
  | err (buf : List Nat) (msg : String)
deriving DecidableEq

/-- Environment behavior for one iteration of the `StartBitCollector`
goroutine: top-of-loop `ctx.Done()` check, the read outcome, how the channel
send `select` resolves, and how the ticker `select` resolves. -/
structure BbIter where
  cancelledAtTop : Bool
  readResult : ReadOutcomeB
  sendOutcome : Sel
  waitOutcome : Sel

/-- Collector events: a `ReadRandom` call, and a `ReadResult` sent on the
output channel (`isErr` mirrors `Err != nil`). -/
inductive BbEv
  | read
  | deliver (data : List Nat) (isErr : Bool)
deriving DecidableEq

/-- The `ReadResult` content built by the goroutine (lines 100-112): on
success the buffer is the payload `ReadRandom` wrote (the `n < numBytes`
truncation cuts exactly the untouched zero tail) with the final-byte mask
applied; on error the buffer is sent as-is with the error. -/
def bbDelivered (bits : Nat) : ReadOutcomeB → List Nat × Bool
  | .ok payload => (maskExcess bits payload, false)
  | .err buf _ => (buf, true)

/-- The goroutine loop of `bbusb.StartBitCollector` (src/unnamed/part_002
lines 93-123): check cancellation; perform one read; send the `ReadResult`
(success **or** error) on the channel unless cancellation preempts the send;
then block on ticker-or-cancellation and continue.  Note that a read error
does not terminate this loop. -/
def startBitCollectorLoop (bits : Nat) : List BbIter → List BbEv
  | [] => []
  | it :: rest =>
    if it.cancelledAtTop then []
    else
      let d := bbDelivered bits it.readResult
      match it.sendOutcome with
      | .cancelled => [.read]
      | .proceed =>
        match it.waitOutcome with
        | .cancelled => [.read, .deliver d.1 d.2]
        | .proceed => .read :: .deliver d.1 d.2 :: startBitCollectorLoop bits rest

/-- `bbusb.StartBitCollector` (lines 70-127): argument validation, device
open, then the collection goroutine. -/
def StartBitCollector (bits interval : Int) (bitrate latencyMs : Nat)
    (acq : Acq) (st : St) (sched : List BbIter) : Except String (List BbEv) :=
  if bits ≤ 0 then .error "bits must be > 0"
  else if interval ≤ 0 then .error "interval must be > 0"
  else
    match (OpenBitBabbler bitrate latencyMs acq st).session with
    | none => .error "open failed"
    | some _ => .ok (startBitCollectorLoop bits.toNat sched)

end Bbusb

/-! ## Helper lemmas -/

/-- `purgeLoop` only consumes bulk-IN reads; the write log is untouched. -/
theorem purgeLoop_sent (n : Nat) (st : Bbusb.St) :
    (Bbusb.purgeLoop n st).sent = st.sent := by
  induction n generalizing st with
  | zero => rfl
  | succ n ih =>
    unfold Bbusb.purgeLoop Bbusb.takeRead
    cases h : st.reads with
    | nil => simp [ih]
    | cons c rest =>
      by_cases hc : c.length ≤ 2 <;> simp [hc, ih]

/-- The spec's wording of the divisor: `round(30_000_000 / desired_bitrate) − 1`
with round-to-nearest, `round(x/y) = floor((2x + y) / (2y))`. -/
def specClockDivisor (bitrate : Nat) : Nat :=
  (2 * 30000000 + bitrate) / (2 * bitrate) - 1

/-- `effBitrate` never yields zero (the Go default substitution). -/
theorem effBitrate_pos (b : Nat) : 0 < Bbusb.effBitrate b := by
  unfold Bbusb.effBitrate; split <;> omega

/-- The budget-clamped stride walk of `ReadRandom` extracts exactly a prefix
of the full per-chunk payload: clamping each stride's `usable` by the
remaining budget and breaking at `got == want` is taking the first `budget`
payload bytes. -/
theorem stripWalkTo_eq_take (maxPacket : Nat) :
    ∀ (fuel budget : Nat) (chunk : List Nat),
      Bbusb.stripWalkTo maxPacket fuel budget chunk
        = (Bbusb.stripPacketWalk maxPacket fuel chunk).take budget := by
  intro fuel
  induction fuel with
  | zero => intro budget chunk; simp [Bbusb.stripWalkTo, Bbusb.stripPacketWalk]
  | succ fuel ih =>
    intro budget chunk
    simp only [Bbusb.stripWalkTo, Bbusb.stripPacketWalk]
    by_cases hlen : chunk.length ≤ 2
    · simp [hlen]
    · rw [if_neg hlen, if_neg hlen]
      have ht : min chunk.length maxPacket ≤ chunk.length := Nat.min_le_left _ _
      rw [List.take_append_eq_append_take, List.take_take, List.length_take,
        List.length_drop]
      have hx : min (min chunk.length maxPacket - 2) (chunk.length - 2)
          = min chunk.length maxPacket - 2 := by
        have := Nat.min_le_left chunk.length maxPacket
        exact Nat.min_eq_left (by omega)
      rw [hx, Nat.min_comm budget (min chunk.length maxPacket - 2)]
      by_cases hb : budget ≤ min chunk.length maxPacket - 2
      · have hmin : min (min chunk.length maxPacket - 2) budget = budget :=
          Nat.min_eq_right hb
        rw [hmin]
        have h0 : budget - budget = 0 := Nat.sub_self budget
        rw [h0, if_pos rfl]
        have h0r : budget - (min chunk.length maxPacket - 2) = 0 := by omega
        rw [h0r]
        simp
      · have hmin : min (min chunk.length maxPacket - 2) budget
            = min chunk.length maxPacket - 2 :=
          Nat.min_eq_left (by omega)
        rw [hmin]
        have hne : ¬ (budget - (min chunk.length maxPacket - 2) = 0) := by omega
        rw [if_neg hne, ih]

/-- Per-chunk form of `stripWalkTo_eq_take`. -/
theorem stripChunkGo_eq_take (maxPacket budget : Nat) (chunk : List Nat) :
    Bbusb.stripChunkGo maxPacket budget chunk
      = (Bbusb.stripPacket maxPacket chunk).take budget := by
  unfold Bbusb.stripChunkGo Bbusb.stripPacket
  exact stripWalkTo_eq_take maxPacket chunk.length budget chunk

/-- The payload a chunk contributes never exceeds the remaining budget. -/
theorem stripChunkGo_length_le (maxPacket budget : Nat) (chunk : List Nat) :
    (Bbusb.stripChunkGo maxPacket budget chunk).length ≤ budget := by
  rw [stripChunkGo_eq_take]
  simp [List.length_take]

/-- If the `ReadRandom` loop exits without an error, it has accumulated
exactly `want` payload bytes (`got = want`). -/
theorem readRandomLoop_ok_length (maxPacket want : Nat) :
    ∀ (reads : List (Option (List Nat))) (acc p : List Nat) (k : Nat),
      acc.length ≤ want →
      Bbusb.ReadRandomLoop maxPacket want reads acc = (.ok p, k) →
      p.length = want := by
  intro reads
  induction reads with
  | nil =>
    intro acc p k hle h
    unfold Bbusb.ReadRandomLoop at h
    by_cases hw : want ≤ acc.length
    · rw [if_pos hw] at h
      cases h
      omega
    · rw [if_neg hw] at h
      cases h
  | cons r rest ih =>
    intro acc p k hle h
    unfold Bbusb.ReadRandomLoop at h
    by_cases hw : want ≤ acc.length
    · rw [if_pos hw] at h
      cases h
      omega
    · rw [if_neg hw] at h
      cases r with
      | none => cases h
      | some chunk =>
        simp only at h
        have hlen : (acc ++ Bbusb.stripChunkGo maxPacket (want - acc.length) chunk).length
            ≤ want := by
          have := stripChunkGo_length_le maxPacket (want - acc.length) chunk
          simp [List.length_append]
          omega
        cases hrec : Bbusb.ReadRandomLoop maxPacket want rest
            (acc ++ Bbusb.stripChunkGo maxPacket (want - acc.length) chunk) with
        | mk res k1 =>
          rw [hrec] at h
          cases h
          exact ih _ p k1 hlen hrec

/-- Unfolding equation for the loop on a successful read with work left. -/
theorem readRandomLoop_cons_some (maxPacket want : Nat) (chunk : List Nat)
    (rest : List (Option (List Nat))) (acc : List Nat)
    (h : ¬ want ≤ acc.length) :
    Bbusb.ReadRandomLoop maxPacket want (some chunk :: rest) acc
      = ((Bbusb.ReadRandomLoop maxPacket want rest
            (acc ++ Bbusb.stripChunkGo maxPacket (want - acc.length) chunk)).1,
         (Bbusb.ReadRandomLoop maxPacket want rest
            (acc ++ Bbusb.stripChunkGo maxPacket (want - acc.length) chunk)).2 + 1) := by
  simp only [Bbusb.ReadRandomLoop]
  rw [if_neg h]

/-- Invariant of the `ReadRandom` loop on an error-free transport: the loop
accumulates the concatenated per-chunk payloads, clamped to `want` bytes. -/
theorem readRandomLoop_extracts (maxPacket want : Nat) :
    ∀ (chunks : List (List Nat)) (acc : List Nat),
      acc.length ≤ want →
      want ≤ acc.length + ((chunks.map (Bbusb.stripPacket maxPacket)).flatten).length →
      ∃ k, Bbusb.ReadRandomLoop maxPacket want (chunks.map some) acc
        = (.ok (acc ++ ((chunks.map (Bbusb.stripPacket maxPacket)).flatten).take
            (want - acc.length)), k) := by
  intro chunks
  induction chunks with
  | nil =>
    intro acc hle htot
    refine ⟨0, ?_⟩
    simp only [List.map_nil, List.flatten_nil, List.length_nil] at htot
    have hw : want = acc.length := by omega
    rw [List.map_nil]
    unfold Bbusb.ReadRandomLoop
    rw [if_pos (by omega)]
    have h0 : want - acc.length = 0 := by omega
    simp [h0]
  | cons c cs ih =>
    intro acc hle htot
    by_cases hw : want ≤ acc.length
    · refine ⟨0, ?_⟩
      rw [List.map_cons]
      unfold Bbusb.ReadRandomLoop
      rw [if_pos hw]
      have h0 : want - acc.length = 0 := by omega
      simp [h0]
    · have hstep := stripChunkGo_eq_take maxPacket (want - acc.length) c
      have hsp_le : (Bbusb.stripChunkGo maxPacket (want - acc.length) c).length
          ≤ want - acc.length := stripChunkGo_length_le _ _ _
      have hlen1 : (acc ++ Bbusb.stripChunkGo maxPacket (want - acc.length) c).length
          ≤ want := by
        rw [List.length_append]; omega
      have hlen1eq : (acc ++ Bbusb.stripChunkGo maxPacket (want - acc.length) c).length
          = acc.length
            + min (Bbusb.stripPacket maxPacket c).length (want - acc.length) := by
        rw [List.length_append, hstep, List.length_take, Nat.min_comm]
      have htot1 : want
          ≤ (acc ++ Bbusb.stripChunkGo maxPacket (want - acc.length) c).length
            + ((cs.map (Bbusb.stripPacket maxPacket)).flatten).length := by
        rw [List.map_cons, List.flatten_cons, List.length_append] at htot
        rw [hlen1eq]
        omega
      obtain ⟨k, hk⟩ := ih _ hlen1 htot1
      refine ⟨k + 1, ?_⟩
      have harg : want
            - (acc ++ Bbusb.stripChunkGo maxPacket (want - acc.length) c).length
          = (want - acc.length) - (Bbusb.stripPacket maxPacket c).length := by
        rw [hlen1eq]; omega
      have hfinal : (acc ++ Bbusb.stripChunkGo maxPacket (want - acc.length) c)
            ++ ((cs.map (Bbusb.stripPacket maxPacket)).flatten).take
              (want - (acc ++ Bbusb.stripChunkGo maxPacket (want - acc.length) c).length)
          = acc ++ (((c :: cs).map (Bbusb.stripPacket maxPacket)).flatten).take
              (want - acc.length) := by
        rw [harg, hstep, List.append_assoc, List.map_cons, List.flatten_cons,
          List.take_append_eq_append_take]
      rw [List.map_cons, readRandomLoop_cons_some maxPacket want c (cs.map some) acc hw,
        hk, hfinal]

/-- `runSteps` attempts at most the available steps. -/
theorem runSteps_le (fs : List (Bbusb.St → Bool × Bbusb.St)) (st : Bbusb.St) :
    (Bbusb.runSteps fs st).1 ≤ fs.length := by
  induction fs generalizing st with
  | nil => simp [Bbusb.runSteps]
  | cons f fs ih =>
    cases hf : (f st).1
    · simp [Bbusb.runSteps, hf]
    · simp only [Bbusb.runSteps, hf, if_true, List.length_cons]
      exact Nat.succ_le_succ (ih (f st).2)

/-- Running only the steps actually attempted gives the same outcome: the
steps beyond the first failure are never invoked. -/
theorem runSteps_take_eq (fs : List (Bbusb.St → Bool × Bbusb.St))
    (st : Bbusb.St) :
    Bbusb.runSteps (fs.take (Bbusb.runSteps fs st).1) st
      = Bbusb.runSteps fs st := by
  induction fs generalizing st with
  | nil => simp [Bbusb.runSteps]
  | cons f fs ih =>
    cases hf : (f st).1
    · simp [Bbusb.runSteps, hf]
    · simp only [Bbusb.runSteps, hf, if_true, List.take_succ_cons]
      rw [ih (f st).2]

/-- Sequential composition of `runSteps` over an append. -/
theorem runSteps_append (xs ys : List (Bbusb.St → Bool × Bbusb.St))
    (st : Bbusb.St) :
    Bbusb.runSteps (xs ++ ys) st
      = if (Bbusb.runSteps xs st).2.2 then
          ((Bbusb.runSteps xs st).1
            + (Bbusb.runSteps ys (Bbusb.runSteps xs st).2.1).1,
           (Bbusb.runSteps ys (Bbusb.runSteps xs st).2.1).2.1,
           (Bbusb.runSteps ys (Bbusb.runSteps xs st).2.1).2.2)
        else Bbusb.runSteps xs st := by
  induction xs generalizing st with
  | nil => simp [Bbusb.runSteps]
  | cons f xs ih =>
    cases hf : (f st).1
    · simp [Bbusb.runSteps, hf]
    · simp only [List.cons_append, Bbusb.runSteps, hf, if_true, List.append_eq]
      rw [ih (f st).2]
      cases hr : (Bbusb.runSteps xs (f st).2).2.2
      · simp [hr]
      · simp only [hr, if_true]
        have harith : (Bbusb.runSteps xs (f st).2).1
              + (Bbusb.runSteps ys (Bbusb.runSteps xs (f st).2).2.1).1 + 1
            = (Bbusb.runSteps xs (f st).2).1 + 1
              + (Bbusb.runSteps ys (Bbusb.runSteps xs (f st).2).2.1).1 := by
          omega
        rw [harith]

/-- The bounded read loop of `checkSync` fails whenever none of the next `k`
oracle reads is a valid echo reply — later reads are never consulted. -/
theorem syncLoop_no_match (cmd : Nat) :
    ∀ (k : Nat) (st : Bbusb.St),
      (∀ c ∈ st.reads.take k, ¬ Bbusb.syncReplyMatches cmd c) →
      (Bbusb.syncLoop cmd k st).1 = false := by
  intro k
  induction k with
  | zero => intro st _; rfl
  | succ k ih =>
    intro st h
    obtain ⟨cs, rs, ws, sl⟩ := st
    cases rs with
    | nil =>
      simp only [Bbusb.syncLoop, Bbusb.takeRead]
      rw [if_neg (by simp [Bbusb.syncReplyMatches])]
      exact ih _ (by simp)
    | cons c rest =>
      have hc : ¬ Bbusb.syncReplyMatches cmd c := by
        apply h
        simp [List.take_succ_cons]
      simp only [Bbusb.syncLoop, Bbusb.takeRead]
      rw [if_neg hc]
      refine ih _ ?_
      intro c2 hc2
      apply h
      simp only [List.take_succ_cons, List.mem_cons]
      exact Or.inr (by simpa using hc2)

/-! ## Claim theorems -/

/-- Claim C2: for every `n ≥ 1` and every chunking of the transport's
responses, `ReadRandom` accumulates exactly `n` payload bytes — the
concatenation, clamped to `n`, of the per-chunk non-header bytes obtained by
walking each received chunk in `maxPacket`-size strides and stripping the
2-byte status header of each stride (chunks of ≤ 2 bytes contribute
nothing) — provided the transport supplies at least `n` payload bytes and no
bulk transfer errs; and whenever `ReadRandom` returns without error it has
returned exactly `n` bytes, so fewer than `n` occur only on a transfer
error. -/
theorem c2_read_random_reconstructs_payload (maxPacket want : Nat)
    (chunks : List (List Nat)) (hw : 1 ≤ want)
    (henough : want
      ≤ ((chunks.map (Bbusb.stripPacket maxPacket)).flatten).length) :
    (Bbusb.ReadRandom maxPacket true (chunks.map some) want).result
      = .ok (((chunks.map (Bbusb.stripPacket maxPacket)).flatten).take want)
    ∧ (((chunks.map (Bbusb.stripPacket maxPacket)).flatten).take want).length
        = want
    ∧ ∀ (reads : List (Option (List Nat))) (p : List Nat),
        (Bbusb.ReadRandom maxPacket true reads want).result = .ok p →
        p.length = want := by
  have h0 : ¬ (want = 0) := by omega
  refine ⟨?_, ?_, ?_⟩
  · obtain ⟨k, hk⟩ := readRandomLoop_extracts maxPacket want chunks []
      (by simp) (by simpa using henough)
    simp only [Bbusb.ReadRandom, if_neg h0,
      if_neg (by decide : ¬ (true = false))]
    simp only [List.length_nil, Nat.sub_zero, List.nil_append] at hk
    rw [hk]
  · rw [List.length_take]
    omega
  · intro reads p hok
    simp only [Bbusb.ReadRandom, if_neg h0,
      if_neg (by decide : ¬ (true = false))] at hok
    have hpair : Bbusb.ReadRandomLoop maxPacket want reads []
        = (.ok p, (Bbusb.ReadRandomLoop maxPacket want reads []).2) := by
      rw [← hok]
    exact readRandomLoop_ok_length maxPacket want reads [] p _ (by simp) hpair

/-- Witness for `c2_read_random_reconstructs_payload`: `maxPacket = 4`,
`n = 3`, two chunks `[9,9,1,2]` and `[8,8,3]` whose stripped payloads are
`[1,2]` and `[3]`. -/
theorem c2_read_random_reconstructs_payload_witness :
    (Bbusb.ReadRandom 4 true (List.map some [[9, 9, 1, 2], [8, 8, 3]]) 3).result
      = .ok [1, 2, 3] := by
  have h := c2_read_random_reconstructs_payload 4 3 [[9, 9, 1, 2], [8, 8, 3]]
    (by decide) (by decide)
  rw [h.1]
  rfl

/-- Claim C6 (amended): the divisor programmed into the chip is
`uint16(30000000/bitrate - 1)` with Go's *truncating* (floor) unsigned
division — not round-to-nearest: for effective bitrates ≤ 30 MHz it equals
`(⌊30000000 / bitrate⌋ - 1) mod 2^16`, for larger bitrates the unsigned wrap
yields `0xFFFF`; and the divisor bytes are sent to the chip in the combined
parameter command written by the programming step. -/
theorem c6_amended_divisor_truncating (bitrate : Nat) :
    (Bbusb.effBitrate bitrate ≤ 30000000 →
      Bbusb.clkDiv (Bbusb.effBitrate bitrate)
        = (30000000 / Bbusb.effBitrate bitrate - 1) % 2 ^ 16)
    ∧ (30000000 < Bbusb.effBitrate bitrate →
        Bbusb.clkDiv (Bbusb.effBitrate bitrate) = 0xFFFF)
    ∧ (Bbusb.initCmd (Bbusb.effBitrate bitrate)).drop 9
        = [0x86, Bbusb.clkDiv (Bbusb.effBitrate bitrate) &&& 0xFF,
           Bbusb.clkDiv (Bbusb.effBitrate bitrate) >>> 8, 0x85]
    ∧ ∀ st : Bbusb.St, st.writes ≠ [] →
        (Bbusb.programStep (Bbusb.effBitrate bitrate) st).2.sent
          = st.sent ++ [Bbusb.initCmd (Bbusb.effBitrate bitrate)] := by
  have hb : 0 < Bbusb.effBitrate bitrate := effBitrate_pos bitrate
  have h64 : (2 : Nat) ^ 64 = 18446744073709551616 := by norm_num
  have h16 : (2 : Nat) ^ 16 = 65536 := by norm_num
  refine ⟨?_, ?_, rfl, ?_⟩
  · intro hle
    have hq1 : 1 ≤ 30000000 / Bbusb.effBitrate bitrate :=
      (Nat.one_le_div_iff hb).mpr hle
    have hq2 : 30000000 / Bbusb.effBitrate bitrate ≤ 30000000 :=
      Nat.div_le_self _ _
    unfold Bbusb.clkDiv
    rw [h64, h16]
    omega
  · intro hlt
    have hq0 : 30000000 / Bbusb.effBitrate bitrate = 0 := Nat.div_eq_of_lt hlt
    unfold Bbusb.clkDiv
    rw [hq0, h64, h16]
  · intro st hwnil
    obtain ⟨cs, rs, ws, sl⟩ := st
    cases ws with
    | nil => simp at hwnil
    | cons w rest =>
      cases w <;>
        simp [Bbusb.programStep, Bbusb.takeWrite, purgeLoop_sent]

/-- Witness for `c6_amended_divisor_truncating` at bitrate 2,500,000
(divisor 11) with one pending successful write. -/
theorem c6_amended_divisor_truncating_witness :
    Bbusb.clkDiv (Bbusb.effBitrate 2500000)
      = (30000000 / Bbusb.effBitrate 2500000 - 1) % 2 ^ 16
    ∧ (Bbusb.programStep (Bbusb.effBitrate 2500000) ⟨[], [], [true], []⟩).2.sent
        = ([] : List (List Nat)) ++ [Bbusb.initCmd (Bbusb.effBitrate 2500000)] := by
  have h := c6_amended_divisor_truncating 2500000
  exact ⟨h.1 (by norm_num [Bbusb.effBitrate]),
    h.2.2.2 ⟨[], [], [true], []⟩ (by simp)⟩

/-- Claim C4: if the vendor initialization sequence of `OpenBitBabbler` fails
at some step, then (i) the caller receives no session and an error, (ii) the
interface, configuration, device handle and context are each released exactly
once via `Close`, (iii) at most the 9 steps exist, and (iv) running only the
`n` attempted steps yields the same outcome — the steps after the failing one
are never invoked. -/
theorem c4_init_failure_aborts_and_releases (bitrate latencyMs : Nat)
    (acq : Bbusb.Acq) (st : Bbusb.St) (n : Nat) (st1 : Bbusb.St)
    (hdev : acq.deviceFound = true) (hcfg : acq.configOk = true)
    (hintf : acq.interfaceOk = true) (heps : acq.endpointsOk = true)
    (hrun : Bbusb.runSteps (Bbusb.initSteps (Bbusb.effBitrate bitrate)
        (Bbusb.effLatency latencyMs)) st = (n, st1, false)) :
    Bbusb.OpenBitBabbler bitrate latencyMs acq st
      = ⟨none, [.intf, .cfg, .dev, .ctx], n⟩
    ∧ (∀ r : Bbusb.Res,
        (Bbusb.OpenBitBabbler bitrate latencyMs acq st).closes.count r = 1)
    ∧ n ≤ 9
    ∧ Bbusb.runSteps ((Bbusb.initSteps (Bbusb.effBitrate bitrate)
        (Bbusb.effLatency latencyMs)).take n) st = (n, st1, false) := by
  have hopen : Bbusb.OpenBitBabbler bitrate latencyMs acq st
      = ⟨none, [.intf, .cfg, .dev, .ctx], n⟩ := by
    simp only [Bbusb.OpenBitBabbler, hdev, hcfg, hintf, heps]
    rw [hrun]
    rfl
  refine ⟨hopen, ?_, ?_, ?_⟩
  · intro r
    rw [hopen]
    cases r <;> rfl
  · have h := runSteps_le (Bbusb.initSteps (Bbusb.effBitrate bitrate)
      (Bbusb.effLatency latencyMs)) st
    rw [hrun] at h
    simpa [Bbusb.initSteps] using h
  · have h := runSteps_take_eq (Bbusb.initSteps (Bbusb.effBitrate bitrate)
      (Bbusb.effLatency latencyMs)) st
    rw [hrun] at h
    simpa using h

/-- Witness for `c4_init_failure_aborts_and_releases`: the very first control
transfer (chip reset) fails. -/
theorem c4_init_failure_aborts_and_releases_witness :
    Bbusb.OpenBitBabbler 0 0 ⟨true, true, true, true, 64⟩ ⟨[false], [], [], []⟩
      = ⟨none, [.intf, .cfg, .dev, .ctx], 1⟩
    ∧ (1 : Nat) ≤ 9 := by
  have h := c4_init_failure_aborts_and_releases 0 0 ⟨true, true, true, true, 64⟩
    ⟨[false], [], [], []⟩ 1 ⟨[], [], [], []⟩ rfl rfl rfl rfl (by decide)
  exact ⟨h.1, h.2.2.1⟩

/-- Claim C5: the synchronization check of `OpenBitBabbler` runs the
two-stage sequence (`checkSync 0xAA` then `checkSync 0xAB`, each a bounded
scan of at most 10 reads for a 4-byte reply whose third byte is `0xFA` and
whose fourth echoes the bogus command) at most twice.  Given an oracle on
which the first seven init steps succeed and leave state `st7`:
(a) if the first two-stage attempt fails, the retry succeeds, and the final
programming step succeeds, the session opens; (b) if both attempts fail,
`OpenBitBabbler` fails with no session after step 8; (c) if the first attempt
succeeds no retry is performed; (d) `checkSync` consults at most its first 10
oracle reads: it fails whenever none of them is a valid echo reply. -/
theorem c5_sync_two_stage_retry_once (bitrate latencyMs : Nat)
    (acq : Bbusb.Acq) (st st7 : Bbusb.St)
    (hdev : acq.deviceFound = true) (hcfg : acq.configOk = true)
    (hintf : acq.interfaceOk = true) (heps : acq.endpointsOk = true)
    (h7 : Bbusb.runSteps ((Bbusb.initSteps (Bbusb.effBitrate bitrate)
        (Bbusb.effLatency latencyMs)).take 7) st = (7, st7, true)) :
    ((Bbusb.checkSyncPair st7).1 = false →
      (Bbusb.checkSyncPair (Bbusb.checkSyncPair st7).2).1 = true →
      (Bbusb.programStep (Bbusb.effBitrate bitrate)
        (Bbusb.checkSyncPair (Bbusb.checkSyncPair st7).2).2).1 = true →
      (Bbusb.OpenBitBabbler bitrate latencyMs acq st).session
        = some ⟨acq.maxPacket, true, true, true, true⟩)
    ∧ ((Bbusb.checkSyncPair st7).1 = false →
        (Bbusb.checkSyncPair (Bbusb.checkSyncPair st7).2).1 = false →
        Bbusb.OpenBitBabbler bitrate latencyMs acq st
          = ⟨none, [.intf, .cfg, .dev, .ctx], 8⟩)
    ∧ ((Bbusb.checkSyncPair st7).1 = true →
        Bbusb.syncStep st7 = Bbusb.checkSyncPair st7)
    ∧ (∀ (cmd : Nat) (stx : Bbusb.St),
        (∀ c ∈ stx.reads.take 10, ¬ Bbusb.syncReplyMatches cmd c) →
        (Bbusb.checkSync cmd stx).1 = false) := by
  have hsplit : Bbusb.initSteps (Bbusb.effBitrate bitrate)
        (Bbusb.effLatency latencyMs)
      = (Bbusb.initSteps (Bbusb.effBitrate bitrate)
          (Bbusb.effLatency latencyMs)).take 7
        ++ [Bbusb.syncStep, Bbusb.programStep (Bbusb.effBitrate bitrate)] := rfl
  have happ := runSteps_append ((Bbusb.initSteps (Bbusb.effBitrate bitrate)
      (Bbusb.effLatency latencyMs)).take 7)
    [Bbusb.syncStep, Bbusb.programStep (Bbusb.effBitrate bitrate)] st
  rw [h7] at happ
  simp only [] at happ
  refine ⟨?_, ?_, ?_, ?_⟩
  · intro hfail1 hre hprog
    have hsync : Bbusb.syncStep st7
        = Bbusb.checkSyncPair (Bbusb.checkSyncPair st7).2 := by
      simp [Bbusb.syncStep, hfail1]
    have hys : Bbusb.runSteps
          [Bbusb.syncStep, Bbusb.programStep (Bbusb.effBitrate bitrate)] st7
        = (2, (Bbusb.programStep (Bbusb.effBitrate bitrate)
            (Bbusb.checkSyncPair (Bbusb.checkSyncPair st7).2).2).2, true) := by
      simp [Bbusb.runSteps, hsync, hre, hprog]
    rw [hys] at happ
    simp only [if_true] at happ
    simp only [Bbusb.OpenBitBabbler, hdev, hcfg, hintf, heps]
    rw [← hsplit] at happ
    rw [happ]
    rfl
  · intro hfail1 hfail2
    have hsync : Bbusb.syncStep st7
        = Bbusb.checkSyncPair (Bbusb.checkSyncPair st7).2 := by
      simp [Bbusb.syncStep, hfail1]
    have hys : Bbusb.runSteps
          [Bbusb.syncStep, Bbusb.programStep (Bbusb.effBitrate bitrate)] st7
        = (1, (Bbusb.checkSyncPair (Bbusb.checkSyncPair st7).2).2, false) := by
      simp [Bbusb.runSteps, hsync, hfail2]
    rw [hys] at happ
    simp only [if_true] at happ
    simp only [Bbusb.OpenBitBabbler, hdev, hcfg, hintf, heps]
    rw [← hsplit] at happ
    rw [happ]
    rfl
  · intro hok
    simp [Bbusb.syncStep, hok]
  · intro cmd stx hno
    obtain ⟨cs, rs, ws, sl⟩ := stx
    cases ws with
    | nil => rfl
    | cons w ws =>
      cases w
      · rfl
      · simp only [Bbusb.checkSync, Bbusb.takeWrite]
        rw [if_neg (by simp)]
        exact syncLoop_no_match cmd 10 _ (by simpa using hno)

/-- Witness for `c5_sync_two_stage_retry_once`: the first sync attempt fails
(its bulk write fails), the retried two-stage check succeeds on valid echo
replies, and the session opens. -/
theorem c5_sync_two_stage_retry_once_witness :
    (Bbusb.OpenBitBabbler 0 0 ⟨true, true, true, true, 64⟩
        ⟨List.replicate 7 true, [[], [0, 0, 0xFA, 0xAA], [0, 0, 0xFA, 0xAB]],
         [false, true, true, true], []⟩).session
      = some ⟨64, true, true, true, true⟩ := by
  have h := c5_sync_two_stage_retry_once 0 0 ⟨true, true, true, true, 64⟩
    ⟨List.replicate 7 true, [[], [0, 0, 0xFA, 0xAA], [0, 0, 0xFA, 0xAB]],
     [false, true, true, true], []⟩
    ⟨[], [[0, 0, 0xFA, 0xAA], [0, 0, 0xFA, 0xAB]], [false, true, true, true], []⟩
    rfl rfl rfl rfl (by decide)
  exact h.1 (by decide) (by decide) (by decide)

/-- Claim C10: `ReadRandom` on an empty buffer returns `(0, nil)` immediately:
no MPSSE command is written, no bulk transfer is performed, and (the Go method
mutating no session field on any path) the session is unchanged. -/
theorem c10_empty_buffer_read (maxPacket : Nat) (cmdWriteOk : Bool)
    (reads : List (Option (List Nat))) :
    Bbusb.ReadRandom maxPacket cmdWriteOk reads 0 =
      { result := .ok [], cmdWrites := [], bulkReads := 0 } := rfl

/-- Claim C1 (failing evaluation): for `bits = 12` with device payload
`0xFF 0xFF`, `bbusb.ReadBitsOnce` returns `[0xFF, 0x0F]` — it masks the final
byte with `0xFF >> 4`, zeroing the HIGH four bits and keeping the low four,
so the low `8 - bits mod 8 = 4` bits are NOT zero as the claim (and §3 of the
spec, and the function's own MSB-first doc comment) require.  The software
path `pseudorng.ReadBits` on the same final byte produces `0xF0`, the
contract-compliant value. -/
theorem c1_bbusb_low_bits_not_zero :
    (Bbusb.ReadBitsOnce 12 0 0 ⟨true, true, true, true, 64⟩
        ⟨List.replicate 7 true, [[], [0, 0, 0xFA, 0xAA], [0, 0, 0xFA, 0xAB]],
         [true, true, true], []⟩ true [some [0, 0, 0xFF, 0xFF]]).1
      = .ok [0xFF, 0x0F]
    ∧ ¬ (0x0F % 2 ^ 4 = 0)
    ∧ (Pseudorng.ReadBits 12 [0xFF, 0xFF]).1 = .ok [0xFF, 0xF0]
    ∧ 0xF0 % 2 ^ 4 = 0 :=
  ⟨rfl, by decide, rfl, by decide⟩

/-- Claim C6 (counterexample): for desired bitrate 8,000,000 the code programs
divisor `30000000/8000000 - 1 = 2` (truncating division), while the claim's
`round(30_000_000/8_000_000) − 1 = round(3.75) − 1 = 3`. -/
theorem c6_counterexample :
    Bbusb.clkDiv 8000000 = 2 ∧ specClockDivisor 8000000 = 3 ∧
      Bbusb.clkDiv 8000000 ≠ specClockDivisor 8000000 := by
  refine ⟨by norm_num [Bbusb.clkDiv], by norm_num [specClockDivisor], ?_⟩
  norm_num [Bbusb.clkDiv, specClockDivisor]

/-- Claim C3 (counterexample): a schedule whose first read fails.
`bbusb.StartBitCollector`'s loop delivers the failed `ReadResult` and then
— contradicting the claim — issues a further read and a further delivery:
the trace contains two reads. -/
theorem c3_counterexample :
    Bbusb.startBitCollectorLoop 16
        [⟨false, .err [0, 0] "read failed", .proceed, .proceed⟩,
         ⟨false, .ok [1, 2], .proceed, .cancelled⟩]
      = [.read, .deliver [0, 0] true, .read, .deliver [1, 2] false]
    ∧ (Bbusb.startBitCollectorLoop 16
        [⟨false, .err [0, 0] "read failed", .proceed, .proceed⟩,
         ⟨false, .ok [1, 2], .proceed, .cancelled⟩]).count .read = 2 :=
  ⟨rfl, by decide⟩

/-- Claim C3 (amended): the shared interval loop of
`pseudorng.CollectBitsAtInterval` and `truerng.CollectBitsAtInterval` halts on
a read error, surfaces it, and performs no further read or delivery; but
`bbusb.StartBitCollector` delivers the error `ReadResult` to the sink and,
unless cancelled, keeps looping and issues further reads. -/
theorem c3_amended_error_behavior (it : LoopIter) (rest : List LoopIter)
    (e : String) (h1 : it.cancelledAtTop = false) (h2 : it.readResult = .error e)
    (bits : Nat) (bit : Bbusb.BbIter) (brest : List Bbusb.BbIter)
    (buf : List Nat) (msg : String)
    (h3 : bit.cancelledAtTop = false) (h4 : bit.readResult = .err buf msg)
    (h5 : bit.sendOutcome = .proceed) (h6 : bit.waitOutcome = .proceed) :
    collectLoop (it :: rest) = (.fatal e, [.read])
    ∧ Bbusb.startBitCollectorLoop bits (bit :: brest)
        = .read :: .deliver buf true :: Bbusb.startBitCollectorLoop bits brest := by
  constructor
  · simp [collectLoop, h1, h2]
  · simp [Bbusb.startBitCollectorLoop, h3, h4, h5, h6, Bbusb.bbDelivered]

/-- Witness for `c3_amended_error_behavior` at a concrete schedule. -/
theorem c3_amended_error_behavior_witness :
    collectLoop [⟨false, .error "boom", .proceed⟩] = (.fatal "boom", [.read])
    ∧ Bbusb.startBitCollectorLoop 8 [⟨false, .err [0] "boom", .proceed, .proceed⟩]
        = [.read, .deliver [0] true] := by
  have h := c3_amended_error_behavior ⟨false, .error "boom", .proceed⟩ [] "boom"
    rfl rfl 8 ⟨false, .err [0] "boom", .proceed, .proceed⟩ [] [0] "boom"
    rfl rfl rfl rfl
  exact ⟨h.1, by rw [h.2]; rfl⟩

/-- Claim C7: for `bits ≤ 0` each of `pseudorng.ReadBits`, `truerng.ReadBits`
and `bbusb.ReadBitsOnce` fails with its invalid-argument error and performs
no I/O: no entropy read, no port enumeration or open, no device open, no
transfer — the event trace is empty. -/
theorem c7_nonpositive_bits_no_io (bits : Int) (h : bits ≤ 0)
    (entropy stream : List Nat) (port : Option String) (openOk : Bool)
    (bitrate latencyMs : Nat) (acq : Bbusb.Acq) (st : Bbusb.St) (cw : Bool)
    (rr : List (Option (List Nat))) :
    Pseudorng.ReadBits bits entropy = (.error "bitCount must be positive", [])
    ∧ TrueRng.ReadBits bits port openOk stream
        = (.error "bitCount must be positive", [])
    ∧ Bbusb.ReadBitsOnce bits bitrate latencyMs acq st cw rr
        = (.error "bits must be > 0", []) := by
  refine ⟨?_, ?_, ?_⟩
  · simp [Pseudorng.ReadBits, h]
  · simp [TrueRng.ReadBits, h]
  · simp [Bbusb.ReadBitsOnce, h]

/-- Witness for `c7_nonpositive_bits_no_io` at `bits = 0`. -/
theorem c7_nonpositive_bits_no_io_witness :
    Pseudorng.ReadBits 0 [] = (.error "bitCount must be positive", [])
    ∧ TrueRng.ReadBits 0 none false [] = (.error "bitCount must be positive", [])
    ∧ Bbusb.ReadBitsOnce 0 0 0 ⟨true, true, true, true, 64⟩ ⟨[], [], [], []⟩ true []
        = (.error "bits must be > 0", []) :=
  c7_nonpositive_bits_no_io 0 (by decide) [] [] none false 0 0
    ⟨true, true, true, true, 64⟩ ⟨[], [], [], []⟩ true []

/-- Claim C8: in every collection loop, if cancellation wins the inter-tick
wait the loop terminates with exactly the events of the completed iteration —
no further read is issued and no further sink delivery occurs.  (For
`StartBitCollector` the delivery select is also covered: the iteration's
events end the trace.) -/
theorem c8_cancel_during_wait (it : LoopIter) (rest : List LoopIter)
    (b : List Nat) (h1 : it.cancelledAtTop = false)
    (h2 : it.readResult = .ok b) (h3 : it.waitOutcome = .cancelled)
    (bits : Nat) (bit : Bbusb.BbIter) (brest : List Bbusb.BbIter)
    (h4 : bit.cancelledAtTop = false) (h5 : bit.sendOutcome = .proceed)
    (h6 : bit.waitOutcome = .cancelled) :
    collectLoop (it :: rest) = (.cancelled, [.read, .deliver b])
    ∧ Bbusb.startBitCollectorLoop bits (bit :: brest)
        = [.read, .deliver (Bbusb.bbDelivered bits bit.readResult).1
                           (Bbusb.bbDelivered bits bit.readResult).2] := by
  constructor
  · simp [collectLoop, h1, h2, h3]
  · simp [Bbusb.startBitCollectorLoop, h4, h5, h6]

/-- Witness for `c8_cancel_during_wait` at a concrete schedule. -/
theorem c8_cancel_during_wait_witness :
    collectLoop [⟨false, .ok [3, 4], .cancelled⟩, ⟨false, .ok [9], .proceed⟩]
      = (.cancelled, [.read, .deliver [3, 4]])
    ∧ Bbusb.startBitCollectorLoop 16
        [⟨false, .ok [3, 4], .proceed, .cancelled⟩, ⟨false, .ok [9], .proceed, .proceed⟩]
      = [.read, .deliver [3, 4] false] := by
  have h := c8_cancel_during_wait ⟨false, .ok [3, 4], .cancelled⟩
    [⟨false, .ok [9], .proceed⟩] [3, 4] rfl rfl rfl 16
    ⟨false, .ok [3, 4], .proceed, .cancelled⟩
    [⟨false, .ok [9], .proceed, .proceed⟩] rfl rfl rfl
  exact ⟨h.1, by rw [h.2]; rfl⟩

/-- Claim C9: `DeviceSession.Close` releases the resources in the order
interface, configuration, device handle, USB context (for a fully populated
session the release list is exactly that), and a second call after a first
is a no-op: the resource state is unchanged, the same (idempotent) release
calls are issued, and no error exists — the Go method returns nothing and
discards all sub-close results. -/
theorem c9_close_reentrant_ordered (s : Bbusb.Session) (r : Bbusb.Resources) :
    (Bbusb.closeSession (some s) (Bbusb.closeSession (some s) r).1).1
      = (Bbusb.closeSession (some s) r).1
    ∧ (Bbusb.closeSession (some s) (Bbusb.closeSession (some s) r).1).2
      = (Bbusb.closeSession (some s) r).2
    ∧ (s.hasIntf = true → s.hasCfg = true → s.hasDev = true → s.hasCtx = true →
        (Bbusb.closeSession (some s) r).2 = [.intf, .cfg, .dev, .ctx]) := by
  obtain ⟨mp, i, c, d, x⟩ := s
  obtain ⟨ri, rc, rd, rx⟩ := r
  cases i <;> cases c <;> cases d <;> cases x <;>
    simp [Bbusb.closeSession]

/-- Witness for `c9_close_reentrant_ordered` on a fully populated session. -/
theorem c9_close_reentrant_ordered_witness :
    (Bbusb.closeSession (some ⟨64, true, true, true, true⟩)
        (Bbusb.closeSession (some ⟨64, true, true, true, true⟩)
          ⟨true, true, true, true⟩).1).1
      = (Bbusb.closeSession (some ⟨64, true, true, true, true⟩)
          ⟨true, true, true, true⟩).1
    ∧ (Bbusb.closeSession (some ⟨64, true, true, true, true⟩)
          ⟨true, true, true, true⟩).2 = [.intf, .cfg, .dev, .ctx] := by
  have h := c9_close_reentrant_ordered ⟨64, true, true, true, true⟩
    ⟨true, true, true, true⟩
  exact ⟨h.1, h.2.2 rfl rfl rfl rfl⟩

end RngCli
